import Mathlib

/-!
Verification of the architecture-generator pipeline of `claude-gsi`
(`src/backend/app/services/generator.py`, `src/backend/app/models.py`,
`src/backend/app/main.py`, and the serverless variant `src/api/index.py`).

The Python source is shallowly embedded: text is `List Char` (Python `str`
is a sequence of code points), `json.loads` is modelled by a fuel-based
recursive-descent parser `Json.parse` over the JSON fragment the service
manipulates (objects, arrays, strings with escapes, numeric lexemes,
literals), pydantic model validation is modelled by explicit validators
that read only the declared field names/aliases and ignore unknown keys
(pydantic's default `extra = "ignore"`), and the streaming generator is a
function from the list of received text chunks plus the stream outcome to
the list of emitted events.
-/

/-- JSON values as produced by Python's `json.loads`.  Numbers keep their
raw lexeme (Python turns them into `int`/`float`; no code under
verification inspects the numeric value, only structure). -/
inductive Json where
  | null : Json
  | bool : Bool → Json
  | num : String → Json
  | str : String → Json
  | arr : List Json → Json
  | obj : List (String × Json) → Json

/-- JSON whitespace accepted by Python's `json` scanner. -/
def isJsonWs (c : Char) : Bool :=
  c = ' ' || c = '\t' || c = '\n' || c = '\r'

/-- Hex digit value, for `\uXXXX` escapes. -/
def hexVal (c : Char) : Option Nat :=
  if '0' ≤ c ∧ c ≤ '9' then some (c.toNat - '0'.toNat)
  else if 'a' ≤ c ∧ c ≤ 'f' then some (c.toNat - 'a'.toNat + 10)
  else if 'A' ≤ c ∧ c ≤ 'F' then some (c.toNat - 'A'.toNat + 10)
  else none

/-- Parse the body of a JSON string literal (after the opening quote),
returning the decoded characters and the rest of the input after the
closing quote.  Mirrors Python's strict JSON string scanner: raw control
characters are rejected, escapes are `\" \\ \/ \b \f \n \r \t \uXXXX`. -/
def parseStringBody : List Char → Option (List Char × List Char)
  | [] => none
  | '"' :: rest => some ([], rest)
  | '\\' :: esc => match esc with
    | '"' :: rest => (parseStringBody rest).map fun (s, r) => ('"' :: s, r)
    | '\\' :: rest => (parseStringBody rest).map fun (s, r) => ('\\' :: s, r)
    | '/' :: rest => (parseStringBody rest).map fun (s, r) => ('/' :: s, r)
    | 'b' :: rest => (parseStringBody rest).map fun (s, r) => ('\x08' :: s, r)
    | 'f' :: rest => (parseStringBody rest).map fun (s, r) => ('\x0c' :: s, r)
    | 'n' :: rest => (parseStringBody rest).map fun (s, r) => ('\n' :: s, r)
    | 'r' :: rest => (parseStringBody rest).map fun (s, r) => ('\r' :: s, r)
    | 't' :: rest => (parseStringBody rest).map fun (s, r) => ('\t' :: s, r)
    | 'u' :: h1 :: h2 :: h3 :: h4 :: rest =>
      match hexVal h1, hexVal h2, hexVal h3, hexVal h4 with
      | some a, some b, some c, some d =>
        let code := ((a * 16 + b) * 16 + c) * 16 + d
        (parseStringBody rest).map fun (s, r) => (Char.ofNat code :: s, r)
      | _, _, _, _ => none
    | _ => none
  | c :: rest =>
    if c.toNat < 0x20 then none
    else (parseStringBody rest).map fun (s, r) => (c :: s, r)

/-- Longest prefix of decimal digits. -/
def spanDigits : List Char → (List Char × List Char)
  | [] => ([], [])
  | c :: rest =>
    if c.isDigit then
      let (ds, r) := spanDigits rest
      (c :: ds, r)
    else ([], c :: rest)

/-- Optional fraction part `('.' [0-9]+)?`; a bare `1.` is malformed. -/
def parseFrac : List Char → Option (List Char × List Char)
  | '.' :: fr =>
    let (ds, r) := spanDigits fr
    if ds.isEmpty then none else some ('.' :: ds, r)
  | other => some ([], other)

/-- Optional exponent part `([eE] [+-]? [0-9]+)?` appended to `lex`. -/
def parseNumberExp (lex : List Char) (cs : List Char) : Option (List Char × List Char) :=
  match cs with
  | 'e' :: rest => expSign 'e' rest
  | 'E' :: rest => expSign 'E' rest
  | _ => some (lex, cs)
where
  /-- Exponent sign and digits. -/
  expSign (e : Char) (cs : List Char) : Option (List Char × List Char) :=
    let (sgn, cs1) := match cs with
      | '+' :: rest => (['+'], rest)
      | '-' :: rest => (['-'], rest)
      | _ => (([] : List Char), cs)
    let (ds, r) := spanDigits cs1
    if ds.isEmpty then none else some (lex ++ e :: sgn ++ ds, r)

/-- Parse a JSON number lexeme per the JSON grammar Python enforces:
`-? (0 | [1-9][0-9]*) ('.' [0-9]+)? ([eE] [+-]? [0-9]+)?`.
Returns the lexeme and the rest of the input. -/
def parseNumber (cs : List Char) : Option (List Char × List Char) :=
  let (sign, cs1) := match cs with
    | '-' :: rest => (['-'], rest)
    | _ => (([] : List Char), cs)
  match cs1 with
  | [] => none
  | c :: rest =>
    if ¬ c.isDigit then none
    else
      let (intPart, afterInt) :=
        if c = '0' then ([c], rest)
        else
          let (ds, r) := spanDigits rest
          (c :: ds, r)
      match parseFrac afterInt with
      | none => none
      | some (fracPart, afterFrac) =>
        parseNumberExp (sign ++ intPart ++ fracPart) afterFrac

mutual
/-- One JSON value, fuelled.  Skips leading whitespace, exactly as every
call site of Python's `scan_once` has whitespace already consumed. -/
def parseValue : Nat → List Char → Option (Json × List Char)
  | 0, _ => none
  | fuel + 1, cs =>
    match cs.dropWhile isJsonWs with
    | 'n' :: 'u' :: 'l' :: 'l' :: rest => some (.null, rest)
    | 't' :: 'r' :: 'u' :: 'e' :: rest => some (.bool true, rest)
    | 'f' :: 'a' :: 'l' :: 's' :: 'e' :: rest => some (.bool false, rest)
    | '"' :: rest => (parseStringBody rest).map fun (s, r) => (.str ⟨s⟩, r)
    | '[' :: rest =>
      match rest.dropWhile isJsonWs with
      | ']' :: r => some (.arr [], r)
      | other => (parseArrayItems fuel other).map fun (xs, r) => (.arr xs, r)
    | '{' :: rest =>
      match rest.dropWhile isJsonWs with
      | '}' :: r => some (.obj [], r)
      | other => (parseObjectItems fuel other).map fun (kvs, r) => (.obj kvs, r)
    | other => (parseNumber other).map fun (lex, r) => (.num ⟨lex⟩, r)

/-- Comma-separated values up to `]`. -/
def parseArrayItems : Nat → List Char → Option (List Json × List Char)
  | 0, _ => none
  | fuel + 1, cs => do
    let (v, rest) ← parseValue fuel cs
    match rest.dropWhile isJsonWs with
    | ',' :: rest2 =>
      let (vs, rest3) ← parseArrayItems fuel rest2
      some (v :: vs, rest3)
    | ']' :: rest2 => some ([v], rest2)
    | _ => none

/-- Comma-separated `"key": value` pairs up to `}`. -/
def parseObjectItems : Nat → List Char → Option (List (String × Json) × List Char)
  | 0, _ => none
  | fuel + 1, cs =>
    match cs.dropWhile isJsonWs with
    | '"' :: rest => do
      let (k, rest1) ← parseStringBody rest
      match rest1.dropWhile isJsonWs with
      | ':' :: rest2 => do
        let (v, rest3) ← parseValue fuel rest2
        match rest3.dropWhile isJsonWs with
        | ',' :: rest4 =>
          let (kvs, rest5) ← parseObjectItems fuel rest4
          some ((⟨k⟩, v) :: kvs, rest5)
        | '}' :: rest4 => some ([(⟨k⟩, v)], rest4)
        | _ => none
      | _ => none
    | _ => none
end

/-- Model of Python's `json.loads`: parse one value, then require only
whitespace to remain.  The fuel is generous; the nesting depth of a
document is bounded by its length. -/
def Json.parse (cs : List Char) : Option Json :=
  match parseValue (2 * cs.length + 8) cs with
  | some (v, rest) => if (rest.dropWhile isJsonWs).isEmpty then some v else none
  | none => none

/-- Python `dict` membership/lookup after `json.loads` (duplicate keys:
last one wins, as in Python's dict construction). -/
def lookupKey (kvs : List (String × Json)) (k : String) : Option Json :=
  (kvs.reverse.find? (fun p => p.1 == k)).map (·.2)

/-- Field access for a pydantic model with `populate_by_name = True`:
the alias is looked up first, then the Python field name. -/
def getF (kvs : List (String × Json)) (al nm : String) : Option Json :=
  (lookupKey kvs al).orElse fun _ => lookupKey kvs nm

/-- A pydantic `str` field (on the exactly-typed fragment). -/
def asStr : Json → Option String
  | .str s => some s
  | _ => none

/-- A pydantic `bool` field (on the exactly-typed fragment). -/
def asBool : Json → Option Bool
  | .bool b => some b
  | _ => none

/-- A pydantic `list[T]` field. -/
def asListOf (f : Json → Option α) : Json → Option (List α)
  | .arr xs => xs.mapM f
  | _ => none

/-- `ArchitectureComponent` of `src/backend/app/models.py`. -/
structure ArchitectureComponent where
  name : String
  service : String
  purpose : String
  phi_touchpoint : Bool
deriving Repr, DecidableEq

/-- `DataFlow` of `src/backend/app/models.py` (`from`/`to` aliased). -/
structure DataFlow where
  from_component : String
  to_component : String
  data : String
  encrypted : Bool
deriving Repr, DecidableEq

/-- `ComplianceItem` of `src/backend/app/models.py`; `category` and
`priority` carry the string admitted by their `Literal` types. -/
structure ComplianceItem where
  category : String
  requirement : String
  implementation : String
  priority : String
deriving Repr, DecidableEq

/-- `Architecture` of `src/backend/app/models.py`. -/
structure Architecture where
  mermaid_diagram : String
  components : List ArchitectureComponent
  data_flows : List DataFlow
deriving Repr, DecidableEq

/-- `Compliance` of `src/backend/app/models.py`. -/
structure Compliance where
  checklist : List ComplianceItem
  baa_requirements : String
deriving Repr, DecidableEq

/-- `Deployment` of `src/backend/app/models.py`. -/
structure Deployment where
  steps : List String
  iam_policies : List String
  network_config : String
  monitoring_setup : String
deriving Repr, DecidableEq

/-- `SampleCode` of `src/backend/app/models.py`. -/
structure SampleCode where
  python : String
  typescript : String
deriving Repr, DecidableEq

/-- `ArchitectureResponse` of `src/backend/app/models.py`. -/
structure ArchitectureResponse where
  architecture : Architecture
  compliance : Compliance
  deployment : Deployment
  sample_code : SampleCode
deriving Repr, DecidableEq

/-- `CodeGenerationResponse` of `src/backend/app/models.py`. -/
structure CodeGenerationResponse where
  sample_code : SampleCode
deriving Repr, DecidableEq

/-- Validation of `ArchitectureComponent` (pydantic: required fields by
alias or name, unknown keys ignored). -/
def validateComponent : Json → Option ArchitectureComponent
  | .obj kvs => do
    let nm ← lookupKey kvs "name" >>= asStr
    let sv ← lookupKey kvs "service" >>= asStr
    let pu ← lookupKey kvs "purpose" >>= asStr
    let ph ← getF kvs "phiTouchpoint" "phi_touchpoint" >>= asBool
    some ⟨nm, sv, pu, ph⟩
  | _ => none

/-- Validation of `DataFlow`. -/
def validateDataFlow : Json → Option DataFlow
  | .obj kvs => do
    let fr ← getF kvs "from" "from_component" >>= asStr
    let tc ← getF kvs "to" "to_component" >>= asStr
    let da ← lookupKey kvs "data" >>= asStr
    let en ← lookupKey kvs "encrypted" >>= asBool
    some ⟨fr, tc, da, en⟩
  | _ => none

/-- Validation of `ComplianceItem` per `src/backend/app/models.py`, whose
`priority` is `Literal["required", "recommended", "addressable"]`. -/
def validateComplianceItem : Json → Option ComplianceItem
  | .obj kvs =>
    match (lookupKey kvs "category").bind asStr with
    | some ca =>
      if ca ∈ ["administrative", "physical", "technical"] then
        match (lookupKey kvs "requirement").bind asStr with
        | some re =>
          match (lookupKey kvs "implementation").bind asStr with
          | some im =>
            match (lookupKey kvs "priority").bind asStr with
            | some pr =>
              if pr ∈ ["required", "recommended", "addressable"] then
                some ⟨ca, re, im, pr⟩
              else none
            | none => none
          | none => none
        | none => none
      else none
    | none => none
  | _ => none

/-- Validation of `ComplianceItem` per the serverless variant
`src/api/index.py`, whose `priority` is `Literal["required", "recommended"]`. -/
def validateComplianceItemApi : Json → Option ComplianceItem
  | .obj kvs =>
    match (lookupKey kvs "category").bind asStr with
    | some ca =>
      if ca ∈ ["administrative", "physical", "technical"] then
        match (lookupKey kvs "requirement").bind asStr with
        | some re =>
          match (lookupKey kvs "implementation").bind asStr with
          | some im =>
            match (lookupKey kvs "priority").bind asStr with
            | some pr =>
              if pr ∈ ["required", "recommended"] then
                some ⟨ca, re, im, pr⟩
              else none
            | none => none
          | none => none
        | none => none
      else none
    | none => none
  | _ => none

/-- Validation of `Architecture`. -/
def validateArchitecture : Json → Option Architecture
  | .obj kvs => do
    let md ← getF kvs "mermaidDiagram" "mermaid_diagram" >>= asStr
    let co ← lookupKey kvs "components" >>= asListOf validateComponent
    let df ← getF kvs "dataFlows" "data_flows" >>= asListOf validateDataFlow
    some ⟨md, co, df⟩
  | _ => none

/-- Validation of `Compliance`. -/
def validateCompliance : Json → Option Compliance
  | .obj kvs => do
    let ch ← lookupKey kvs "checklist" >>= asListOf validateComplianceItem
    let ba ← getF kvs "baaRequirements" "baa_requirements" >>= asStr
    some ⟨ch, ba⟩
  | _ => none

/-- Validation of `Deployment`. -/
def validateDeployment : Json → Option Deployment
  | .obj kvs => do
    let st ← lookupKey kvs "steps" >>= asListOf asStr
    let ia ← getF kvs "iamPolicies" "iam_policies" >>= asListOf asStr
    let ne ← getF kvs "networkConfig" "network_config" >>= asStr
    let mo ← getF kvs "monitoringSetup" "monitoring_setup" >>= asStr
    some ⟨st, ia, ne, mo⟩
  | _ => none

/-- Validation of `SampleCode`. -/
def validateSampleCode : Json → Option SampleCode
  | .obj kvs => do
    let py ← lookupKey kvs "python" >>= asStr
    let ts ← lookupKey kvs "typescript" >>= asStr
    some ⟨py, ts⟩
  | _ => none

/-- `ArchitectureResponse.model_validate` on a parsed JSON object. -/
def validateArchitectureResponse : Json → Option ArchitectureResponse
  | .obj kvs => do
    let ar ← lookupKey kvs "architecture" >>= validateArchitecture
    let co ← lookupKey kvs "compliance" >>= validateCompliance
    let de ← lookupKey kvs "deployment" >>= validateDeployment
    let sc ← getF kvs "sampleCode" "sample_code" >>= validateSampleCode
    some ⟨ar, co, de, sc⟩
  | _ => none

/-- `CodeGenerationResponse.model_validate` on a parsed JSON object. -/
def validateCodeGenerationResponse : Json → Option CodeGenerationResponse
  | .obj kvs => do
    let sc ← getF kvs "sampleCode" "sample_code" >>= validateSampleCode
    some ⟨sc⟩
  | _ => none

/-- Whitespace stripped by Python's `str.strip()` (ASCII fragment). -/
def isPySpace (c : Char) : Bool :=
  c = ' ' || c = '\t' || c = '\n' || c = '\r' || c = '\x0b' || c = '\x0c'

/-- Python `str.strip()`: drop leading and trailing whitespace. -/
def pyStrip (cs : List Char) : List Char :=
  List.rdropWhile isPySpace (cs.dropWhile isPySpace)

/-- The response normalizer of `ArchitectureGenerator.generate`
(`src/backend/app/services/generator.py` lines 232-239): strip, drop one
leading ```` ```json ```` marker, drop one leading ```` ``` ```` marker,
drop one trailing ```` ``` ```` marker, strip again. -/
def normalizeResponse (cs : List Char) : List Char :=
  let s := pyStrip cs
  let s := if "```json".data.isPrefixOf s then s.drop 7 else s
  let s := if "```".data.isPrefixOf s then s.drop 3 else s
  let s := if "```".data.isSuffixOf s then s.take (s.length - 3) else s
  pyStrip s

/-- Python `text.split("\n", 1)[1]`: everything after the first newline;
`none` models the `IndexError` raised when there is no newline. -/
def dropFirstLine (cs : List Char) : Option (List Char) :=
  match cs.dropWhile (fun c => ¬ c = '\n') with
  | _ :: rest => some rest
  | [] => none

/-- The markdown cleanup of `ArchitectureGenerator.generate_code`
(`src/backend/app/services/generator.py` lines 419-426): strip, drop the
whole first line when the text starts with ```` ``` ````, cut everything
from the last ```` ``` ```` when the text ends with it, strip again.
Since the cut is applied only when the text ends with ```` ``` ````, the
last occurrence is the final three characters, so `rsplit("```", 1)[0]`
is `take (length - 3)`. -/
def normalizeCode (cs : List Char) : Option (List Char) :=
  let s := pyStrip cs
  match (if "```".data.isPrefixOf s then dropFirstLine s else some s) with
  | none => none
  | some s =>
    let s := if "```".data.isSuffixOf s then s.take (s.length - 3) else s
    some (pyStrip s)

/-- The outcome of one completion call: its stop reason and its text
(`message.stop_reason`, `message.content[0].text`). -/
structure Completion where
  stop_reason : String
  text : List Char

/-- `MAX_RESPONSE_SIZE` of `src/backend/app/services/generator.py`. -/
def MAX_RESPONSE_SIZE : Nat := 500000

/-- The failure modes a generation call can surface.  In the source each
is a raised exception: `truncated`, `responseTooLarge`,
`malformedResponse` and `incompleteResponse` are the four `ValueError`s
of `generator.py`; `schemaViolation` is a pydantic `ValidationError`
from `model_validate`; `pyError` is an uncaught `TypeError`/`IndexError`
on a degenerate path. -/
inductive GenError where
  | truncated
  | responseTooLarge
  | malformedResponse
  | incompleteResponse (missing : List String)
  | schemaViolation
  | pyError
deriving Repr, DecidableEq

/-- `required_keys` of `ArchitectureGenerator.generate` (line 249);
`sampleCode` is the wire name of the `sample_code` section. -/
def requiredKeys : List String :=
  ["architecture", "compliance", "deployment", "sampleCode"]

/-- Python `key in xs` for a parsed JSON list: a string needle equals
only a string element. -/
def pyHasStr (xs : List Json) (k : String) : Bool :=
  xs.any fun x => match x with | .str s => s == k | _ => false

/-- The required-keys check plus `model_validate` of
`ArchitectureGenerator.generate` (lines 248-256), applied to the parsed
JSON document.  Python's `key in data` is dict lookup on an object,
element membership on a list, substring test on a string and a
`TypeError` otherwise; a non-dict document that passes the containment
check still fails `model_validate` (a pydantic `ValidationError`,
mapped to `schemaViolation`). -/
def generateFromParsed (d : Json) : Except GenError ArchitectureResponse :=
  match d with
  | .obj kvs =>
    let missing := requiredKeys.filter fun k => (lookupKey kvs k).isNone
    if missing.isEmpty then
      match validateArchitectureResponse (.obj kvs) with
      | some r => .ok r
      | none => .error .schemaViolation
    else .error (.incompleteResponse missing)
  | .arr xs =>
    let missing := requiredKeys.filter fun k => ! pyHasStr xs k
    if missing.isEmpty then .error .schemaViolation
    else .error (.incompleteResponse missing)
  | .str s =>
    let missing := requiredKeys.filter fun k => ! decide (k.data <:+: s.data)
    if missing.isEmpty then .error .schemaViolation
    else .error (.incompleteResponse missing)
  | _ => .error .pyError

/-- `ArchitectureGenerator.generate` (`generator.py` lines 199-256)
after the completion call: truncation check, size ceiling, normalizer,
`json.loads`, required keys, `model_validate`. -/
def generate (m : Completion) : Except GenError ArchitectureResponse :=
  if m.stop_reason = "max_tokens" then .error .truncated
  else if m.text.length > MAX_RESPONSE_SIZE then .error .responseTooLarge
  else
    match Json.parse (normalizeResponse m.text) with
    | none => .error .malformedResponse
    | some d => generateFromParsed d

/-- `ArchitectureGenerator.generate_code` (`generator.py` lines 381-434)
after the completion call.  The source performs no stop-reason check and
no size check on this path: the text goes straight to markdown cleanup,
`json.loads` and `model_validate`. -/
def generate_code (m : Completion) : Except GenError CodeGenerationResponse :=
  match normalizeCode m.text with
  | none => .error .pyError
  | some t =>
    match Json.parse t with
    | none => .error .malformedResponse
    | some d =>
      match validateCodeGenerationResponse d with
      | some r => .ok r
      | none => .error .schemaViolation

/-- Whitespace of Python's regex `\s` (ASCII fragment). -/
def isReSpace (c : Char) : Bool :=
  c = ' ' || c = '\t' || c = '\n' || c = '\r' || c = '\x0b' || c = '\x0c'

/-- Try to match the pattern `"<name>"\s*:\s*\{` of
`_try_extract_section` at the head of `cs`; on success return the suffix
of `cs` that starts at the opening brace (`match.end() - 1`). -/
def matchKeyAt (name : List Char) (cs : List Char) : Option (List Char) :=
  let quoted := '"' :: (name ++ ['"'])
  if quoted.isPrefixOf cs then
    match (cs.drop quoted.length).dropWhile isReSpace with
    | ':' :: rest =>
      match rest.dropWhile isReSpace with
      | '{' :: tail => some ('{' :: tail)
      | _ => none
    | _ => none
  else none

/-- `re.search`: the match at the leftmost starting position. -/
def findSection (name : List Char) : List Char → Option (List Char)
  | [] => none
  | c :: cs =>
    match matchKeyAt name (c :: cs) with
    | some suffix => some suffix
    | none => findSection name cs

/-- The scanner state of `_try_extract_section`: brace depth, whether we
are inside a string literal, whether the previous character was an
unconsumed backslash. -/
structure ScanSt where
  depth : Int
  inStr : Bool
  esc : Bool
deriving Repr, DecidableEq

/-- One character of the `_try_extract_section` scan, as a state
transition (the loop additionally returns when the `}` branch brings the
depth to zero). -/
def stepChar (st : ScanSt) (c : Char) : ScanSt :=
  if st.esc then { st with esc := false }
  else if c = '\\' then { st with esc := true }
  else if c = '"' then { st with inStr := ¬ st.inStr }
  else if st.inStr then st
  else if c = '{' then { st with depth := st.depth + 1 }
  else if c = '}' then { st with depth := st.depth - 1 }
  else st

/-- The character loop of `_try_extract_section` (`generator.py` lines
356-377): scan forward keeping `acc` (the consumed span, reversed);
when a counted `}` returns the depth to zero, yield the whole span. -/
def scanLoop : ScanSt → List Char → List Char → Option (List Char)
  | _, _, [] => none
  | st, acc, c :: cs =>
    if st.esc then scanLoop { st with esc := false } (c :: acc) cs
    else if c = '\\' then scanLoop { st with esc := true } (c :: acc) cs
    else if c = '"' then scanLoop { st with inStr := ¬ st.inStr } (c :: acc) cs
    else if st.inStr then scanLoop st (c :: acc) cs
    else if c = '{' then scanLoop { st with depth := st.depth + 1 } (c :: acc) cs
    else if c = '}' then
      if st.depth - 1 = 0 then some (c :: acc).reverse
      else scanLoop { st with depth := st.depth - 1 } (c :: acc) cs
    else scanLoop st (c :: acc) cs

/-- `ArchitectureGenerator._try_extract_section` (`generator.py` lines
344-379): locate the first `"<name>"\s*:\s*\{`, scan from the opening
brace until the depth returns to zero, and `json.loads` the span;
`none` when the pattern is absent, the span never closes, or the closed
span does not parse. -/
def try_extract_section (text : List Char) (name : String) : Option Json :=
  match findSection name.data text with
  | none => none
  | some suffix =>
    match scanLoop ⟨0, false, false⟩ [] suffix with
    | none => none
    | some span => Json.parse span

/-- The events yielded by `ArchitectureGenerator.generate_stream`. -/
inductive StreamEvent where
  | sectionEv (name : String) (data : Json)
  | done
  | errorEv (detail : String)

/-- The fixed section list of the streaming loop (`generator.py` line 324). -/
def sectionNames : List String := ["architecture", "compliance", "deployment"]

/-- The per-chunk inner loop of `generate_stream` (lines 324-335): walk
the section names in order; a section not yet in the emitted set whose
extraction succeeds is emitted and added to the set. -/
def emitSections : List String → List Char → List String →
    (List StreamEvent × List String)
  | [], _, em => ([], em)
  | n :: ns, buf, em =>
    if n ∈ em then emitSections ns buf em
    else
      match try_extract_section buf n with
      | some d =>
        (.sectionEv n d :: (emitSections ns buf (em ++ [n])).1,
         (emitSections ns buf (em ++ [n])).2)
      | none => emitSections ns buf em

/-- The chunk loop of `generate_stream` (lines 320-335): append each
received chunk to the accumulated buffer, then run the section pass. -/
def processChunks : List (List Char) → List Char → List String → List StreamEvent
  | [], _, _ => []
  | ch :: rest, buf, em =>
    (emitSections sectionNames (buf ++ ch) em).1 ++
      processChunks rest (buf ++ ch) (emitSections sectionNames (buf ++ ch) em).2

/-- `ArchitectureGenerator.generate_stream` (`generator.py` lines
299-342) as a function of the chunks received from the model stream and
the stream outcome: `none` (normal end, lines 337-338) appends the
terminal `done` event, `some msg` (an exception with text `msg`, lines
340-342) appends the terminal `error` event carrying `str(e)` verbatim. -/
def generate_stream (chunks : List (List Char)) (failure : Option String) :
    List StreamEvent :=
  processChunks chunks [] [] ++
    [match failure with
     | none => .done
     | some msg => .errorEv msg]

/-- The `ValueError` sanitizer of the HTTP handler
(`src/backend/app/main.py` lines 163-175): a message is exposed only if
it contains one of the safe phrases, otherwise it is replaced by a fixed
generic message. -/
def safeMessages : List (List Char) :=
  ["Response exceeded maximum length".data,
   "Response too large".data,
   "Invalid response format from AI model".data,
   "Incomplete response from AI model".data]

/-- `any(msg in error_msg for msg in safe_messages)`. -/
def isSafeMessage (msg : List Char) : Bool :=
  safeMessages.any fun s => decide (s <:+: msg)

/-- The sanitized detail of the non-streaming handler. -/
def sanitizeDetail (msg : List Char) : List Char :=
  if isSafeMessage msg then msg else "Invalid request parameters".data

/-- Upstream (anthropic SDK) exception classes distinguished by the
non-streaming handler (`main.py` lines 176-193). -/
inductive UpstreamError where
  | connection
  | auth
  | rateLimit
  | status (code : Nat)
  | other
deriving Repr, DecidableEq

/-- The fixed user-visible detail for each upstream exception class
(`main.py` lines 176-193). -/
def httpDetail : UpstreamError → List Char
  | .connection => "Service temporarily unavailable.".data
  | .auth => "Service configuration error.".data
  | .rateLimit => "Service busy. Please try again later.".data
  | .status _ => "Failed to generate architecture.".data
  | .other => "Failed to generate architecture. Please try again.".data

/-- A JSON object text for a compliance checklist item with the four
required fields as strings. -/
def mkComplianceJson (ca re im pr : String) : Json :=
  .obj [("category", .str ca), ("requirement", .str re),
        ("implementation", .str im), ("priority", .str pr)]

/-- An oversized completion text: 500001 characters. -/
def bigText : List Char := List.replicate 500001 'a'

/-- A complete, schema-valid response document (used as a concrete
validation input). -/
def sampleDoc : List (String × Json) :=
  [("architecture", .obj
      [("mermaidDiagram", .str "flowchart TD"),
       ("components", .arr [.obj
          [("name", .str "API"), ("service", .str "Gateway"),
           ("purpose", .str "entry"), ("phiTouchpoint", .bool true)]]),
       ("dataFlows", .arr [.obj
          [("from", .str "A"), ("to", .str "B"),
           ("data", .str "PHI"), ("encrypted", .bool true)]])]),
   ("compliance", .obj
      [("checklist", .arr [mkComplianceJson "technical" "Encrypt" "KMS" "required"]),
       ("baaRequirements", .str "BAA required")]),
   ("deployment", .obj
      [("steps", .arr [.str "step1"]), ("iamPolicies", .arr [.str "policy"]),
       ("networkConfig", .str "vpc"), ("monitoringSetup", .str "cloudwatch")]),
   ("sampleCode", .obj
      [("python", .str "print"), ("typescript", .str "console")])]

/-- Whether an event is a `section` event for the given section name. -/
def isSectionNamed (n : String) : StreamEvent → Bool
  | .sectionEv m _ => m == n
  | _ => false

/-! ### Helper lemmas -/

/-- `str.strip()` is idempotent. -/
theorem pyStrip_idem (cs : List Char) : pyStrip (pyStrip cs) = pyStrip cs := by
  unfold pyStrip
  have h1 : List.dropWhile isPySpace
      (List.rdropWhile isPySpace (cs.dropWhile isPySpace))
      = List.rdropWhile isPySpace (cs.dropWhile isPySpace) := by
    cases hX : List.rdropWhile isPySpace (cs.dropWhile isPySpace) with
    | nil => simp
    | cons x xs =>
      rcases List.rdropWhile_prefix isPySpace (cs.dropWhile isPySpace) with ⟨t, ht⟩
      rw [hX] at ht
      have hne : cs.dropWhile isPySpace ≠ [] := by
        rw [← ht]; simp
      have hhd := List.head_dropWhile_not isPySpace cs hne
      have hx : isPySpace x = false := by
        have hsome : (cs.dropWhile isPySpace).head? = some x := by
          rw [← ht]; rfl
        have hh := List.head?_eq_head hne
        rw [hsome] at hh
        rw [← Option.some.inj hh] at hhd
        exact hhd
      simp [List.dropWhile_cons, hx]
  rw [h1, List.rdropWhile_idempotent]

/-- The output of `pyStrip` is a fixed point of `pyStrip`. -/
theorem pyStrip_of_stripped {cs : List Char} (h : ∃ t, cs = pyStrip t) :
    pyStrip cs = cs := by
  rcases h with ⟨t, rfl⟩
  exact pyStrip_idem t

/-- On any input whose normalized form neither starts nor ends with a
fence marker ```` ``` ````, a second normalization pass is the identity. -/
theorem normalizeResponse_fixed (cs : List Char)
    (h1 : "```".data.isPrefixOf (normalizeResponse cs) = false)
    (h2 : "```".data.isSuffixOf (normalizeResponse cs) = false) :
    normalizeResponse (normalizeResponse cs) = normalizeResponse cs := by
  have hstrip : pyStrip (normalizeResponse cs) = normalizeResponse cs :=
    pyStrip_of_stripped ⟨_, rfl⟩
  have hjson : "```json".data.isPrefixOf (normalizeResponse cs) = false := by
    cases hx : "```json".data.isPrefixOf (normalizeResponse cs)
    · rfl
    · exfalso
      have hj : "```json".data <+: normalizeResponse cs :=
        List.isPrefixOf_iff_prefix.mp hx
      have h3 : "```".data <+: normalizeResponse cs :=
        List.IsPrefix.trans (by decide) hj
      rw [ List.isPrefixOf_iff_prefix.mpr h3] at h1
      exact absurd h1 (by simp)
  conv_lhs => rw [normalizeResponse]
  simp only [hstrip, hjson, h1, h2, Bool.false_eq_true, if_false]

/-- The depth-scan loop never produces `responseTooLarge`: there is no
size check anywhere in `generate_code`. -/
theorem generate_code_never_responseTooLarge (m : Completion) :
    generate_code m ≠ Except.error .responseTooLarge := by
  cases hn : normalizeCode m.text with
  | none => simp [generate_code, hn]
  | some t =>
    cases hp : Json.parse t with
    | none => simp [generate_code, hn, hp]
    | some d =>
      cases hv : validateCodeGenerationResponse d with
      | none => simp [generate_code, hn, hp, hv]
      | some r => simp [generate_code, hn, hp, hv]

/-- The oversized text has 500001 characters. -/
theorem bigText_length : bigText.length = 500001 := by
  rw [bigText, List.length_replicate]

/-! ### Claim theorems -/

/-- C6, counterexample: the response normalizer is not idempotent.  On
the input ```````x` (two stacked fence openers before an `x`) one pass
yields ```` ```x ```` and a second pass yields `x`. -/
theorem normalizeResponse_not_idempotent :
    normalizeResponse (normalizeResponse "``````x".data) ≠
      normalizeResponse "``````x".data := by decide

/-- C6 (amended): the response normalizer strips one leading and one
trailing fence marker per pass, so it is idempotent on every input whose
normalized form neither starts nor ends with a further fence marker
```` ``` ```` (stacked fence markers are the only source of
non-idempotence). -/
theorem normalizeResponse_idempotent_unless_stacked_fences (cs : List Char)
    (h1 : "```".data.isPrefixOf (normalizeResponse cs) = false)
    (h2 : "```".data.isSuffixOf (normalizeResponse cs) = false) :
    normalizeResponse (normalizeResponse cs) = normalizeResponse cs :=
  normalizeResponse_fixed cs h1 h2

/-- Witness for C6 at the markdown-wrapped document of the spec's test
scenarios. -/
theorem normalizeResponse_idempotent_unless_stacked_fences_witness :
    ("```".data.isPrefixOf (normalizeResponse "```json\n\x7b\"a\": 1\x7d\n```".data) = false) ∧
    ("```".data.isSuffixOf (normalizeResponse "```json\n\x7b\"a\": 1\x7d\n```".data) = false) ∧
    normalizeResponse (normalizeResponse "```json\n\x7b\"a\": 1\x7d\n```".data) =
      normalizeResponse "```json\n\x7b\"a\": 1\x7d\n```".data :=
  ⟨by decide, by decide,
    normalizeResponse_idempotent_unless_stacked_fences _ (by decide) (by decide)⟩

/-- C2, counterexample: the code-only generator performs no stop-reason
check; a completion flagged `max_tokens` whose text happens to parse is
returned as a successfully validated response, not as `Truncated`. -/
theorem generate_code_accepts_max_tokens_completion :
    generate_code ⟨"max_tokens",
        "\x7b\"sampleCode\": \x7b\"python\": \"x\", \"typescript\": \"y\"\x7d\x7d".data⟩ =
      .ok ⟨⟨"x", "y"⟩⟩ ∧
    generate_code ⟨"max_tokens",
        "\x7b\"sampleCode\": \x7b\"python\": \"x\", \"typescript\": \"y\"\x7d\x7d".data⟩ ≠
      .error .truncated := by
  have h1 : generate_code ⟨"max_tokens",
      "\x7b\"sampleCode\": \x7b\"python\": \"x\", \"typescript\": \"y\"\x7d\x7d".data⟩ =
      .ok ⟨⟨"x", "y"⟩⟩ := by rfl
  exact ⟨h1, by rw [h1]; simp⟩

/-- C2 (amended): full-architecture generation raises `Truncated` on
stop reason `max_tokens` regardless of the partial content; the
code-only generator (`generate_code`) performs no stop-reason check and
can return a successfully validated response from a truncated
completion. -/
theorem generate_rejects_max_tokens (m : Completion)
    (h : m.stop_reason = "max_tokens") :
    generate m = .error .truncated := by
  simp [generate, h]

/-- Witness for C2 at the spec's truncation scenario:
stop reason `max_tokens`, body `{"partial": "data"}`. -/
theorem generate_rejects_max_tokens_witness :
    (Completion.stop_reason ⟨"max_tokens", "\x7b\"partial\": \"data\"\x7d".data⟩ = "max_tokens") ∧
    generate ⟨"max_tokens", "\x7b\"partial\": \"data\"\x7d".data⟩ = .error .truncated :=
  ⟨rfl, generate_rejects_max_tokens _ rfl⟩

/-- C3, counterexample: the code-only generator performs no size check;
an oversized candidate (500001 characters) is not rejected with
`ResponseTooLarge` — no input at all can produce `ResponseTooLarge` on
that path. -/
theorem generate_code_skips_size_ceiling :
    bigText.length > MAX_RESPONSE_SIZE ∧
    generate_code ⟨"end_turn", bigText⟩ ≠ .error .responseTooLarge := by
  constructor
  · rw [gt_iff_lt, bigText_length]
    decide
  · exact generate_code_never_responseTooLarge _

/-- C3 (amended): on the full-architecture path a candidate text longer
than the 500000-byte ceiling fails with `ResponseTooLarge` before any
JSON parsing is attempted; the code-only path (`generate_code`) performs
no size check at all. -/
theorem generate_rejects_oversized (m : Completion)
    (h1 : m.stop_reason ≠ "max_tokens")
    (h2 : m.text.length > MAX_RESPONSE_SIZE) :
    generate m = .error .responseTooLarge := by
  simp [generate, h1, h2]

/-- Witness for C3 at a 500001-character completion. -/
theorem generate_rejects_oversized_witness :
    (Completion.stop_reason ⟨"end_turn", bigText⟩ ≠ "max_tokens") ∧
    (Completion.text ⟨"end_turn", bigText⟩).length > MAX_RESPONSE_SIZE ∧
    generate ⟨"end_turn", bigText⟩ = .error .responseTooLarge :=
  ⟨by decide, by rw [gt_iff_lt]; show MAX_RESPONSE_SIZE < bigText.length; rw [bigText_length]; decide,
    generate_rejects_oversized _ (by decide)
      (by rw [gt_iff_lt]; show MAX_RESPONSE_SIZE < bigText.length; rw [bigText_length]; decide)⟩

/-- Evaluation of the backend compliance-item validator on a concrete
object shape. -/
theorem validateComplianceItem_mk (ca re im pr : String) :
    validateComplianceItem (mkComplianceJson ca re im pr) =
      if ca ∈ ["administrative", "physical", "technical"] then
        if pr ∈ ["required", "recommended", "addressable"] then
          some ⟨ca, re, im, pr⟩
        else none
      else none := rfl

/-- Evaluation of the serverless compliance-item validator on a concrete
object shape. -/
theorem validateComplianceItemApi_mk (ca re im pr : String) :
    validateComplianceItemApi (mkComplianceJson ca re im pr) =
      if ca ∈ ["administrative", "physical", "technical"] then
        if pr ∈ ["required", "recommended"] then
          some ⟨ca, re, im, pr⟩
        else none
      else none := rfl

/-- Any item accepted by the backend validator has a priority from its
three-value set. -/
theorem validateComplianceItem_some_priority {j : Json} {it : ComplianceItem}
    (h : validateComplianceItem j = some it) :
    it.priority ∈ ["required", "recommended", "addressable"] := by
  cases j with
  | obj kvs =>
    simp only [validateComplianceItem] at h
    split at h
    · split at h
      · split at h
        · split at h
          · split at h
            · split at h
              · rename_i hpr
                obtain rfl : (⟨_, _, _, _⟩ : ComplianceItem) = it := Option.some.inj h
                exact hpr
              · exact absurd h (by simp)
            · exact absurd h (by simp)
          · exact absurd h (by simp)
        · exact absurd h (by simp)
      · exact absurd h (by simp)
    · exact absurd h (by simp)
  | null => exact absurd h (by simp [validateComplianceItem])
  | bool b => exact absurd h (by simp [validateComplianceItem])
  | num s => exact absurd h (by simp [validateComplianceItem])
  | str s => exact absurd h (by simp [validateComplianceItem])
  | arr xs => exact absurd h (by simp [validateComplianceItem])

/-- Any item accepted by the serverless validator has a priority from
its two-value set. -/
theorem validateComplianceItemApi_some_priority {j : Json} {it : ComplianceItem}
    (h : validateComplianceItemApi j = some it) :
    it.priority ∈ ["required", "recommended"] := by
  cases j with
  | obj kvs =>
    simp only [validateComplianceItemApi] at h
    split at h
    · split at h
      · split at h
        · split at h
          · split at h
            · split at h
              · rename_i hpr
                obtain rfl : (⟨_, _, _, _⟩ : ComplianceItem) = it := Option.some.inj h
                exact hpr
              · exact absurd h (by simp)
            · exact absurd h (by simp)
          · exact absurd h (by simp)
        · exact absurd h (by simp)
      · exact absurd h (by simp)
    · exact absurd h (by simp)
  | null => exact absurd h (by simp [validateComplianceItemApi])
  | bool b => exact absurd h (by simp [validateComplianceItemApi])
  | num s => exact absurd h (by simp [validateComplianceItemApi])
  | str s => exact absurd h (by simp [validateComplianceItemApi])
  | arr xs => exact absurd h (by simp [validateComplianceItemApi])

/-- C7, counterexample: the backend model (`src/backend/app/models.py`)
accepts the third priority value `addressable`, so priority is not
restricted to exactly `required` and `recommended`, and `addressable`
does not fail validation. -/
theorem validateComplianceItem_accepts_addressable :
    validateComplianceItem
        (mkComplianceJson "technical" "Encrypt PHI at rest" "Use KMS" "addressable") =
      some ⟨"technical", "Encrypt PHI at rest", "Use KMS", "addressable"⟩ ∧
    ("addressable" : String) ≠ "required" ∧ ("addressable" : String) ≠ "recommended" :=
  ⟨rfl, by decide, by decide⟩

/-- C7 (amended): the backend model admits priority values exactly from
the set `required`, `recommended`, `addressable`; the serverless variant
(`src/api/index.py`) admits exactly `required`, `recommended`.  Any
other priority value fails validation (a `SchemaViolation` in the
pipeline), and every validated item's priority lies in the respective
set. -/
theorem complianceItem_priority_closed_sets :
    (∀ ca re im pr : String,
      (validateComplianceItem (mkComplianceJson ca re im pr)).isSome =
        (decide (ca ∈ ["administrative", "physical", "technical"]) &&
         decide (pr ∈ ["required", "recommended", "addressable"]))) ∧
    (∀ ca re im pr : String,
      (validateComplianceItemApi (mkComplianceJson ca re im pr)).isSome =
        (decide (ca ∈ ["administrative", "physical", "technical"]) &&
         decide (pr ∈ ["required", "recommended"]))) ∧
    (∀ (j : Json) (it : ComplianceItem), validateComplianceItem j = some it →
      it.priority ∈ ["required", "recommended", "addressable"]) ∧
    (∀ (j : Json) (it : ComplianceItem), validateComplianceItemApi j = some it →
      it.priority ∈ ["required", "recommended"]) := by
  refine ⟨?_, ?_, ?_, ?_⟩
  · intro ca re im pr
    rw [validateComplianceItem_mk]
    split
    · split <;> simp_all
    · simp_all
  · intro ca re im pr
    rw [validateComplianceItemApi_mk]
    split
    · split <;> simp_all
    · simp_all
  · intro j it h
    exact validateComplianceItem_some_priority h
  · intro j it h
    exact validateComplianceItemApi_some_priority h

/-- Witness for C7: a `required` item validates on both variants, and an
`addressable` item validated by the backend indeed carries a priority
from the three-value set. -/
theorem complianceItem_priority_closed_sets_witness :
    ((validateComplianceItem (mkComplianceJson "technical" "Audit" "CloudTrail" "required")).isSome =
      (decide (("technical" : String) ∈ ["administrative", "physical", "technical"]) &&
       decide (("required" : String) ∈ ["required", "recommended", "addressable"]))) ∧
    ("addressable" : String) ∈ ["required", "recommended", "addressable"] := by
  refine ⟨complianceItem_priority_closed_sets.1 "technical" "Audit" "CloudTrail" "required", ?_⟩
  exact complianceItem_priority_closed_sets.2.2.1
    (mkComplianceJson "technical" "Audit" "CloudTrail" "addressable")
    ⟨"technical", "Audit", "CloudTrail", "addressable"⟩ (by rfl)

/-- Unfolding of the post-parse validation on a JSON object. -/
theorem generateFromParsed_obj (kvs : List (String × Json)) :
    generateFromParsed (.obj kvs) =
      if (requiredKeys.filter fun k => (lookupKey kvs k).isNone).isEmpty then
        match validateArchitectureResponse (.obj kvs) with
        | some r => .ok r
        | none => .error .schemaViolation
      else .error (.incompleteResponse
        (requiredKeys.filter fun k => (lookupKey kvs k).isNone)) := rfl

/-- The `model_validate` stage never reports missing keys. -/
theorem validate_stage_not_incomplete (kvs : List (String × Json)) (ms : List String) :
    (match validateArchitectureResponse (.obj kvs) with
      | some r => (.ok r : Except GenError ArchitectureResponse)
      | none => .error .schemaViolation) ≠ .error (.incompleteResponse ms) := by
  cases validateArchitectureResponse (.obj kvs) <;> simp

/-- C4: on a candidate that parses as a JSON object, the non-streaming
validation fails with `IncompleteResponse` exactly when one of the four
required top-level keys (`architecture`, `compliance`, `deployment` and
the `sample_code` section under its wire name `sampleCode`) is absent,
the reported list is exactly the list of absent keys, and the spec's
missing-keys scenario `{"architecture": {}}` reports `compliance`,
`deployment`, `sampleCode`. -/
theorem generate_incomplete_iff_missing_keys :
    (∀ kvs : List (String × Json),
      ((∃ ms, generateFromParsed (.obj kvs) = .error (.incompleteResponse ms)) ↔
        ∃ k ∈ requiredKeys, (lookupKey kvs k).isNone = true)) ∧
    (∀ (kvs : List (String × Json)) (ms : List String),
      generateFromParsed (.obj kvs) = .error (.incompleteResponse ms) →
      ms = requiredKeys.filter fun k => (lookupKey kvs k).isNone) ∧
    generate ⟨"end_turn", "\x7b\"architecture\": \x7b\x7d\x7d".data⟩ =
      .error (.incompleteResponse ["compliance", "deployment", "sampleCode"]) := by
  refine ⟨?_, ?_, by rfl⟩
  · intro kvs
    constructor
    · rintro ⟨ms, h⟩
      rw [generateFromParsed_obj] at h
      split at h
      · exact absurd h (validate_stage_not_incomplete kvs ms)
      · rename_i hne
        rcases List.exists_mem_of_ne_nil
            (requiredKeys.filter fun k => (lookupKey kvs k).isNone)
            (fun hnil => hne (by rw [hnil]; rfl)) with ⟨k, hk⟩
        rcases List.mem_filter.mp hk with ⟨hk1, hk2⟩
        exact ⟨k, hk1, hk2⟩
    · rintro ⟨k, hk, hnone⟩
      rw [generateFromParsed_obj]
      have hmem : k ∈ requiredKeys.filter fun k => (lookupKey kvs k).isNone :=
        List.mem_filter.mpr ⟨hk, hnone⟩
      have hne : (requiredKeys.filter fun k => (lookupKey kvs k).isNone).isEmpty = false := by
        cases hemp : (requiredKeys.filter fun k => (lookupKey kvs k).isNone).isEmpty
        · rfl
        · rw [List.isEmpty_iff] at hemp
          rw [hemp] at hmem
          exact absurd hmem (List.not_mem_nil k)
      rw [hne]
      exact ⟨_, rfl⟩
  · intro kvs ms h
    rw [generateFromParsed_obj] at h
    split at h
    · exact absurd h (validate_stage_not_incomplete kvs ms)
    · cases h
      rfl

/-- Witness for C4 at the document `{"architecture": {}}`. -/
theorem generate_incomplete_iff_missing_keys_witness :
    (∃ k ∈ requiredKeys,
      (lookupKey [("architecture", Json.obj [])] k).isNone = true) ∧
    (∃ ms, generateFromParsed (.obj [("architecture", Json.obj [])]) =
      .error (.incompleteResponse ms)) ∧
    (generateFromParsed (.obj [("architecture", Json.obj [])]) =
        .error (.incompleteResponse ["compliance", "deployment", "sampleCode"]) →
      ["compliance", "deployment", "sampleCode"] =
        requiredKeys.filter fun k =>
          (lookupKey [("architecture", Json.obj [])] k).isNone) := by
  refine ⟨⟨"compliance", by decide, by decide⟩, ?_, ?_⟩
  · exact (generate_incomplete_iff_missing_keys.1 _).mpr
      ⟨"compliance", by decide, by decide⟩
  · intro h
    exact generate_incomplete_iff_missing_keys.2.1 _ _ h

/-- Appending a binding for a different key does not change a lookup
(Python dict construction keeps unrelated keys apart). -/
theorem lookupKey_append_ne (kvs : List (String × Json)) (v : Json) {k k' : String}
    (h : (k == k') = false) :
    lookupKey (kvs ++ [(k, v)]) k' = lookupKey kvs k' := by
  unfold lookupKey
  rw [List.reverse_append]
  simp [List.find?, h]

/-- C10: every validator reads only its declared field names and
aliases, so adding an unrecognized key to the object — at the top level
or inside any sub-document — leaves the validation result unchanged
(pydantic's default `extra = "ignore"`): unknown keys are silently
dropped, never a `SchemaViolation`. -/
theorem validators_ignore_unknown_keys :
    (∀ (kvs : List (String × Json)) (k : String) (v : Json),
      k ∉ (["name", "service", "purpose", "phiTouchpoint", "phi_touchpoint"] : List String) →
      validateComponent (.obj (kvs ++ [(k, v)])) = validateComponent (.obj kvs)) ∧
    (∀ (kvs : List (String × Json)) (k : String) (v : Json),
      k ∉ (["from", "from_component", "to", "to_component", "data", "encrypted"] : List String) →
      validateDataFlow (.obj (kvs ++ [(k, v)])) = validateDataFlow (.obj kvs)) ∧
    (∀ (kvs : List (String × Json)) (k : String) (v : Json),
      k ∉ (["category", "requirement", "implementation", "priority"] : List String) →
      validateComplianceItem (.obj (kvs ++ [(k, v)])) = validateComplianceItem (.obj kvs) ∧
      validateComplianceItemApi (.obj (kvs ++ [(k, v)])) = validateComplianceItemApi (.obj kvs)) ∧
    (∀ (kvs : List (String × Json)) (k : String) (v : Json),
      k ∉ (["mermaidDiagram", "mermaid_diagram", "components", "dataFlows", "data_flows"] : List String) →
      validateArchitecture (.obj (kvs ++ [(k, v)])) = validateArchitecture (.obj kvs)) ∧
    (∀ (kvs : List (String × Json)) (k : String) (v : Json),
      k ∉ (["checklist", "baaRequirements", "baa_requirements"] : List String) →
      validateCompliance (.obj (kvs ++ [(k, v)])) = validateCompliance (.obj kvs)) ∧
    (∀ (kvs : List (String × Json)) (k : String) (v : Json),
      k ∉ (["steps", "iamPolicies", "iam_policies", "networkConfig", "network_config",
            "monitoringSetup", "monitoring_setup"] : List String) →
      validateDeployment (.obj (kvs ++ [(k, v)])) = validateDeployment (.obj kvs)) ∧
    (∀ (kvs : List (String × Json)) (k : String) (v : Json),
      k ∉ (["python", "typescript"] : List String) →
      validateSampleCode (.obj (kvs ++ [(k, v)])) = validateSampleCode (.obj kvs)) ∧
    (∀ (kvs : List (String × Json)) (k : String) (v : Json),
      k ∉ (["architecture", "compliance", "deployment", "sampleCode", "sample_code"] : List String) →
      validateArchitectureResponse (.obj (kvs ++ [(k, v)])) =
        validateArchitectureResponse (.obj kvs) ∧
      generateFromParsed (.obj (kvs ++ [(k, v)])) = generateFromParsed (.obj kvs)) := by
  refine ⟨?_, ?_, ?_, ?_, ?_, ?_, ?_, ?_⟩
  · intro kvs k v h
    simp only [List.mem_cons, List.not_mem_nil, or_false, not_or] at h
    obtain ⟨h1, h2, h3, h4, h5⟩ := h
    simp only [validateComponent, getF, lookupKey_append_ne, beq_eq_false_iff_ne, ne_eq,
      h1, h2, h3, h4, h5, not_false_eq_true]
  · intro kvs k v h
    simp only [List.mem_cons, List.not_mem_nil, or_false, not_or] at h
    obtain ⟨h1, h2, h3, h4, h5, h6⟩ := h
    simp only [validateDataFlow, getF, lookupKey_append_ne, beq_eq_false_iff_ne, ne_eq,
      h1, h2, h3, h4, h5, h6, not_false_eq_true]
  · intro kvs k v h
    simp only [List.mem_cons, List.not_mem_nil, or_false, not_or] at h
    obtain ⟨h1, h2, h3, h4⟩ := h
    constructor
    · simp only [validateComplianceItem, lookupKey_append_ne, beq_eq_false_iff_ne, ne_eq,
        h1, h2, h3, h4, not_false_eq_true]
    · simp only [validateComplianceItemApi, lookupKey_append_ne, beq_eq_false_iff_ne, ne_eq,
        h1, h2, h3, h4, not_false_eq_true]
  · intro kvs k v h
    simp only [List.mem_cons, List.not_mem_nil, or_false, not_or] at h
    obtain ⟨h1, h2, h3, h4, h5⟩ := h
    simp only [validateArchitecture, getF, lookupKey_append_ne, beq_eq_false_iff_ne, ne_eq,
      h1, h2, h3, h4, h5, not_false_eq_true]
  · intro kvs k v h
    simp only [List.mem_cons, List.not_mem_nil, or_false, not_or] at h
    obtain ⟨h1, h2, h3⟩ := h
    simp only [validateCompliance, getF, lookupKey_append_ne, beq_eq_false_iff_ne, ne_eq,
      h1, h2, h3, not_false_eq_true]
  · intro kvs k v h
    simp only [List.mem_cons, List.not_mem_nil, or_false, not_or] at h
    obtain ⟨h1, h2, h3, h4, h5, h6, h7⟩ := h
    simp only [validateDeployment, getF, lookupKey_append_ne, beq_eq_false_iff_ne, ne_eq,
      h1, h2, h3, h4, h5, h6, h7, not_false_eq_true]
  · intro kvs k v h
    simp only [List.mem_cons, List.not_mem_nil, or_false, not_or] at h
    obtain ⟨h1, h2⟩ := h
    simp only [validateSampleCode, getF, lookupKey_append_ne, beq_eq_false_iff_ne, ne_eq,
      h1, h2, not_false_eq_true]
  · intro kvs k v h
    simp only [List.mem_cons, List.not_mem_nil, or_false, not_or] at h
    obtain ⟨h1, h2, h3, h4, h5⟩ := h
    have hresp : validateArchitectureResponse (.obj (kvs ++ [(k, v)])) =
        validateArchitectureResponse (.obj kvs) := by
      simp only [validateArchitectureResponse, getF, lookupKey_append_ne,
        beq_eq_false_iff_ne, ne_eq, h1, h2, h3, h4, h5, not_false_eq_true]
    refine ⟨hresp, ?_⟩
    simp only [generateFromParsed, requiredKeys, hresp, List.filter, lookupKey_append_ne,
      beq_eq_false_iff_ne, ne_eq, h1, h2, h3, h4, not_false_eq_true]

/-- Witness for C10: the complete sample document still validates, to
the same result, after an unrecognized top-level key is appended. -/
theorem validators_ignore_unknown_keys_witness :
    (("vendorNotes" : String) ∉
      (["architecture", "compliance", "deployment", "sampleCode", "sample_code"] : List String)) ∧
    validateArchitectureResponse (.obj (sampleDoc ++ [("vendorNotes", Json.str "extra")])) =
      validateArchitectureResponse (.obj sampleDoc) ∧
    (validateArchitectureResponse (.obj sampleDoc)).isSome = true := by
  refine ⟨by decide, ?_, by rfl⟩
  exact (validators_ignore_unknown_keys.2.2.2.2.2.2.2
    sampleDoc "vendorNotes" (Json.str "extra") (by decide)).1

/-- Every event produced by the per-chunk section pass is a `section`
event. -/
theorem emitSections_sections (ns : List String) (buf : List Char) (em : List String) :
    ∀ e ∈ (emitSections ns buf em).1, ∃ n d, e = StreamEvent.sectionEv n d := by
  induction ns generalizing em with
  | nil => intro e he; simp [emitSections] at he
  | cons n ns ih =>
    intro e he
    by_cases hm : n ∈ em
    · rw [emitSections, if_pos hm] at he
      exact ih em e he
    · rw [emitSections, if_neg hm] at he
      cases hx : try_extract_section buf n with
      | some d =>
        rw [hx] at he
        rcases List.mem_cons.mp he with h | h
        · exact ⟨n, d, h⟩
        · exact ih (em ++ [n]) e h
      | none =>
        rw [hx] at he
        exact ih em e he

/-- Every event produced by the chunk loop is a `section` event. -/
theorem processChunks_sections (chunks : List (List Char)) (buf : List Char)
    (em : List String) :
    ∀ e ∈ processChunks chunks buf em, ∃ n d, e = StreamEvent.sectionEv n d := by
  induction chunks generalizing buf em with
  | nil => intro e he; simp [processChunks] at he
  | cons ch rest ih =>
    intro e he
    rw [processChunks] at he
    rcases List.mem_append.mp he with h | h
    · exact emitSections_sections _ _ _ e h
    · exact ih _ _ e h

/-- C9: every streaming event sequence is zero or more `section` events
followed by exactly one terminal event — `done` on normal stream end,
`error` carrying the failure detail otherwise — and nothing follows the
terminal event. -/
theorem generate_stream_event_shape (chunks : List (List Char)) (failure : Option String) :
    ∃ pre,
      generate_stream chunks failure =
        pre ++ [match failure with
                | none => StreamEvent.done
                | some msg => StreamEvent.errorEv msg] ∧
      ∀ e ∈ pre, ∃ n d, e = StreamEvent.sectionEv n d :=
  ⟨processChunks chunks [] [], rfl, processChunks_sections chunks [] []⟩

/-- Witness for C9: a one-chunk stream that ends normally, and an empty
stream that fails. -/
theorem generate_stream_event_shape_witness :
    (∃ pre,
      generate_stream ["\x7b\"architecture\": \x7b\x7d".data] none =
        pre ++ [StreamEvent.done] ∧
      ∀ e ∈ pre, ∃ n d, e = StreamEvent.sectionEv n d) ∧
    (∃ pre,
      generate_stream [] (some "boom") = pre ++ [StreamEvent.errorEv "boom"] ∧
      ∀ e ∈ pre, ∃ n d, e = StreamEvent.sectionEv n d) :=
  ⟨generate_stream_event_shape ["\x7b\"architecture\": \x7b\x7d".data] none,
   generate_stream_event_shape [] (some "boom")⟩

/-- C8, counterexample: the streaming error event carries `str(e)`
verbatim.  A raw upstream error text reaches the caller unchanged
through the stream, even though it is not one of the sanitized safe
messages and the non-streaming handler would replace it. -/
theorem stream_error_event_carries_raw_exception_text :
    generate_stream [] (some "Error code: 401 - raw upstream error body") =
      [StreamEvent.errorEv "Error code: 401 - raw upstream error body"] ∧
    isSafeMessage "Error code: 401 - raw upstream error body".data = false ∧
    sanitizeDetail "Error code: 401 - raw upstream error body".data =
      "Invalid request parameters".data ∧
    httpDetail .connection ≠ "Error code: 401 - raw upstream error body".data ∧
    httpDetail .auth ≠ "Error code: 401 - raw upstream error body".data ∧
    httpDetail .rateLimit ≠ "Error code: 401 - raw upstream error body".data ∧
    httpDetail (.status 500) ≠ "Error code: 401 - raw upstream error body".data ∧
    httpDetail .other ≠ "Error code: 401 - raw upstream error body".data :=
  ⟨rfl, by decide, by decide, by decide, by decide, by decide, by decide, by decide⟩

/-- C8 (amended): the non-streaming handler sanitizes: a `ValueError`
message is exposed only when it contains one of the four safe phrases,
anything else becomes the fixed generic message, and each upstream
exception class maps to a fixed generic detail; the streaming path,
however, emits the exception text verbatim in its `error` event. -/
theorem error_details_sanitized_except_stream :
    (∀ msg : List Char, isSafeMessage msg = false →
      sanitizeDetail msg = "Invalid request parameters".data) ∧
    (∀ msg : List Char, isSafeMessage msg = true → sanitizeDetail msg = msg) ∧
    (∀ e : UpstreamError,
      httpDetail e = "Service temporarily unavailable.".data ∨
      httpDetail e = "Service configuration error.".data ∨
      httpDetail e = "Service busy. Please try again later.".data ∨
      httpDetail e = "Failed to generate architecture.".data ∨
      httpDetail e = "Failed to generate architecture. Please try again.".data) ∧
    (∀ (chunks : List (List Char)) (msg : String),
      generate_stream chunks (some msg) =
        processChunks chunks [] [] ++ [StreamEvent.errorEv msg]) := by
  refine ⟨?_, ?_, ?_, ?_⟩
  · intro msg h
    simp [sanitizeDetail, h]
  · intro msg h
    simp [sanitizeDetail, h]
  · intro e
    cases e with
    | connection => exact Or.inl rfl
    | auth => exact Or.inr (Or.inl rfl)
    | rateLimit => exact Or.inr (Or.inr (Or.inl rfl))
    | status code => exact Or.inr (Or.inr (Or.inr (Or.inl rfl)))
    | other => exact Or.inr (Or.inr (Or.inr (Or.inr rfl)))
  · intro chunks msg
    rfl

/-- Witness for C8: the sanitizer at an unsafe and a safe message, the
upstream mapping at a connection failure, and the verbatim stream
event. -/
theorem error_details_sanitized_except_stream_witness :
    (isSafeMessage "arbitrary internals".data = false ∧
      sanitizeDetail "arbitrary internals".data = "Invalid request parameters".data) ∧
    (isSafeMessage "Response too large".data = true ∧
      sanitizeDetail "Response too large".data = "Response too large".data) ∧
    generate_stream [] (some "boom") =
      processChunks [] [] [] ++ [StreamEvent.errorEv "boom"] :=
  ⟨⟨by decide, error_details_sanitized_except_stream.1 _ (by decide)⟩,
   ⟨by decide, error_details_sanitized_except_stream.2.1 _ (by decide)⟩,
   error_details_sanitized_except_stream.2.2.2 [] "boom"⟩

/-- One step of the scan-loop soundness induction: consuming `c` with
transition `stepChar st c = st'` extends the span by `c`. -/
theorem scanLoop_step (c : Char) (cs : List Char) (st st' : ScanSt) (acc out : List Char)
    (hstep : stepChar st c = st')
    (h : scanLoop st' (c :: acc) cs = some out)
    (ih : ∀ (st : ScanSt) (acc out : List Char), scanLoop st acc cs = some out →
      ∃ sp rest, cs = sp ++ rest ∧ out = acc.reverse ++ sp ∧ sp ≠ [] ∧
        (sp.foldl stepChar st).depth = 0 ∧ sp.getLast? = some '}') :
    ∃ sp rest, c :: cs = sp ++ rest ∧ out = acc.reverse ++ sp ∧ sp ≠ [] ∧
      (sp.foldl stepChar st).depth = 0 ∧ sp.getLast? = some '}' := by
  rcases ih st' (c :: acc) out h with ⟨sp, rest, hcs, hout, hne, hdep, hlast⟩
  refine ⟨c :: sp, rest, by rw [hcs]; rfl, by rw [hout]; simp, by simp, ?_, ?_⟩
  · rw [List.foldl_cons, hstep]
    exact hdep
  · cases sp with
    | nil => exact absurd rfl hne
    | cons s0 sp' =>
      rw [List.getLast?_cons_cons]
      exact hlast

/-- Soundness of the `_try_extract_section` character loop: a returned
span is a nonempty prefix of the scanned suffix, its depth scan ends at
zero, and it ends at the closing brace that produced the return. -/
theorem scanLoop_sound :
    ∀ (cs : List Char) (st : ScanSt) (acc out : List Char),
      scanLoop st acc cs = some out →
      ∃ sp rest, cs = sp ++ rest ∧ out = acc.reverse ++ sp ∧ sp ≠ [] ∧
        (sp.foldl stepChar st).depth = 0 ∧ sp.getLast? = some '}' := by
  intro cs
  induction cs with
  | nil =>
    intro st acc out h
    rw [scanLoop] at h
    exact absurd h (by simp)
  | cons c cs ih =>
    intro st acc out h
    rw [scanLoop] at h
    by_cases h1 : st.esc = true
    · rw [if_pos h1] at h
      exact scanLoop_step c cs st _ acc out (by rw [stepChar, if_pos h1]) h ih
    · rw [if_neg h1] at h
      by_cases h2 : c = '\\'
      · rw [if_pos h2] at h
        exact scanLoop_step c cs st _ acc out
          (by rw [stepChar, if_neg h1, if_pos h2]) h ih
      · rw [if_neg h2] at h
        by_cases h3 : c = '"'
        · rw [if_pos h3] at h
          exact scanLoop_step c cs st _ acc out
            (by rw [stepChar, if_neg h1, if_neg h2, if_pos h3]) h ih
        · rw [if_neg h3] at h
          by_cases h4 : st.inStr = true
          · rw [if_pos h4] at h
            exact scanLoop_step c cs st _ acc out
              (by rw [stepChar, if_neg h1, if_neg h2, if_neg h3, if_pos h4]) h ih
          · rw [if_neg h4] at h
            by_cases h5 : c = '{'
            · rw [if_pos h5] at h
              exact scanLoop_step c cs st _ acc out
                (by rw [stepChar, if_neg h1, if_neg h2, if_neg h3, if_neg h4, if_pos h5]) h ih
            · rw [if_neg h5] at h
              by_cases h6 : c = '}'
              · rw [if_pos h6] at h
                by_cases h7 : st.depth - 1 = 0
                · rw [if_pos h7] at h
                  refine ⟨[c], cs, rfl, ?_, by simp, ?_, ?_⟩
                  · rw [← Option.some.inj h]
                    simp
                  · rw [List.foldl_cons, List.foldl_nil, stepChar,
                      if_neg h1, if_neg h2, if_neg h3, if_neg h4, if_neg h5, if_pos h6]
                    exact h7
                  · rw [h6]
                    rfl
                · rw [if_neg h7] at h
                  exact scanLoop_step c cs st _ acc out
                    (by rw [stepChar, if_neg h1, if_neg h2, if_neg h3, if_neg h4,
                        if_neg h5, if_pos h6]) h ih
              · rw [if_neg h6] at h
                exact scanLoop_step c cs st _ acc out
                  (by rw [stepChar, if_neg h1, if_neg h2, if_neg h3, if_neg h4,
                      if_neg h5, if_neg h6]) h ih

/-- A successful pattern match yields a suffix starting at the opening
brace. -/
theorem matchKeyAt_head (name cs bs : List Char)
    (h : matchKeyAt name cs = some bs) : ∃ t, bs = '{' :: t := by
  simp only [matchKeyAt] at h
  split at h
  · split at h
    · split at h
      · exact ⟨_, (Option.some.inj h).symm⟩
      · exact absurd h (by simp)
    · exact absurd h (by simp)
  · exact absurd h (by simp)

/-- `re.search` soundness: `findSection` returns the match at the
leftmost matching position. -/
theorem findSection_sound (name : List Char) :
    ∀ (text bs : List Char), findSection name text = some bs →
      ∃ i, matchKeyAt name (text.drop i) = some bs ∧
        ∀ j, j < i → matchKeyAt name (text.drop j) = none := by
  intro text
  induction text with
  | nil =>
    intro bs h
    rw [findSection] at h
    exact absurd h (by simp)
  | cons c cs ih =>
    intro bs h
    rw [findSection] at h
    cases hm : matchKeyAt name (c :: cs) with
    | some s =>
      rw [hm] at h
      refine ⟨0, ?_, by omega⟩
      rw [List.drop_zero, hm, Option.some.inj h]
    | none =>
      rw [hm] at h
      rcases ih bs h with ⟨i, hmi, hlt⟩
      refine ⟨i + 1, by rw [List.drop_succ_cons]; exact hmi, ?_⟩
      intro j hj
      cases j with
      | zero => rw [List.drop_zero]; exact hm
      | succ j' =>
        rw [List.drop_succ_cons]
        exact hlt j' (by omega)

/-- Soundness of `_try_extract_section`: a returned object comes from
the first occurrence of the key pattern, whose following span (from the
opening brace) is nonempty, brace-balanced under the escape- and
string-aware depth scan, ends at the closing brace, and parses
standalone as JSON to exactly the returned object. -/
theorem try_extract_section_sound (text : List Char) (n : String) (d : Json)
    (h : try_extract_section text n = some d) :
    ∃ i bs sp rest,
      matchKeyAt n.data (text.drop i) = some bs ∧
      (∀ j, j < i → matchKeyAt n.data (text.drop j) = none) ∧
      bs = sp ++ rest ∧ sp ≠ [] ∧ bs.head? = some '{' ∧
      (sp.foldl stepChar ⟨0, false, false⟩).depth = 0 ∧
      sp.getLast? = some '}' ∧ Json.parse sp = some d := by
  rw [try_extract_section] at h
  split at h
  · exact absurd h (by simp)
  · rename_i bs hf
    split at h
    · exact absurd h (by simp)
    · rename_i span hs
      rcases findSection_sound n.data text bs hf with ⟨i, hmi, hlt⟩
      rcases scanLoop_sound bs ⟨0, false, false⟩ [] span hs with
        ⟨sp, rest, hbs, hout, hne, hdep, hlast⟩
      rcases matchKeyAt_head n.data (text.drop i) bs hmi with ⟨t, hshape⟩
      have hsp : span = sp := by simpa using hout
      refine ⟨i, bs, sp, rest, hmi, hlt, hbs, hne, by rw [hshape]; rfl, hdep, hlast, ?_⟩
      rw [hsp] at h
      exact h

/-- A section event produced by the per-chunk pass comes from a
successful extraction on the current buffer. -/
theorem emitSections_mem {ns : List String} {buf : List Char} {em : List String}
    {n : String} {d : Json}
    (h : StreamEvent.sectionEv n d ∈ (emitSections ns buf em).1) :
    try_extract_section buf n = some d := by
  induction ns generalizing em with
  | nil => simp [emitSections] at h
  | cons m ns ih =>
    by_cases hm : m ∈ em
    · rw [emitSections, if_pos hm] at h
      exact ih h
    · rw [emitSections, if_neg hm] at h
      cases hx : try_extract_section buf m with
      | some d' =>
        rw [hx] at h
        rcases List.mem_cons.mp h with heq | h
        · injection heq with hn hd
          rw [hn, hd]
          exact hx
        · exact ih h
      | none =>
        rw [hx] at h
        exact ih h

/-- A section event in the chunk loop's output comes from a successful
extraction on the buffer formed by some prefix of the chunks. -/
theorem processChunks_mem {chunks : List (List Char)} {buf : List Char}
    {em : List String} {n : String} {d : Json}
    (h : StreamEvent.sectionEv n d ∈ processChunks chunks buf em) :
    ∃ k, 1 ≤ k ∧ k ≤ chunks.length ∧
      try_extract_section (buf ++ (chunks.take k).flatten) n = some d := by
  induction chunks generalizing buf em with
  | nil => simp [processChunks] at h
  | cons ch rest ih =>
    rw [processChunks] at h
    rcases List.mem_append.mp h with h | h
    · refine ⟨1, le_refl 1, by simp, ?_⟩
      have hx := emitSections_mem h
      simpa using hx
    · rcases ih h with ⟨k, hk1, hk2, hext⟩
      refine ⟨k + 1, by omega, by simpa using Nat.add_le_add_right hk2 1, ?_⟩
      simpa [List.append_assoc] using hext

/-- Counting invariant of the per-chunk pass: at most one event per
section name, none when the name is already in the emitted set, the
emitted set only grows, and an emitted name lands in the set. -/
theorem emitSections_count (ns : List String) (buf : List Char) (em : List String)
    (n : String) :
    ((emitSections ns buf em).1.countP (isSectionNamed n) ≤ 1) ∧
    (n ∈ em → (emitSections ns buf em).1.countP (isSectionNamed n) = 0) ∧
    (n ∈ em → n ∈ (emitSections ns buf em).2) ∧
    (1 ≤ (emitSections ns buf em).1.countP (isSectionNamed n) →
      n ∈ (emitSections ns buf em).2) := by
  induction ns generalizing em with
  | nil =>
    refine ⟨by simp [emitSections], by simp [emitSections], ?_, ?_⟩
    · intro hm; simpa [emitSections] using hm
    · intro hc; simp [emitSections] at hc
  | cons m ns ih =>
    by_cases hm : m ∈ em
    · rw [emitSections, if_pos hm]
      exact ih em
    · rw [emitSections, if_neg hm]
      cases hx : try_extract_section buf m with
      | none =>
        simp only
        exact ih em
      | some d =>
        simp only
        rw [List.countP_cons]
        by_cases hmn : m = n
        · subst hmn
          have hnamed : isSectionNamed m (StreamEvent.sectionEv m d) = true := by
            simp [isSectionNamed]
          rw [hnamed, if_pos rfl]
          have hzero := (ih (em ++ [m])).2.1 (by simp)
          have hmem := (ih (em ++ [m])).2.2.1 (by simp)
          refine ⟨by omega, ?_, ?_, ?_⟩
          · intro hc; exact absurd hc hm
          · intro hc; exact absurd hc hm
          · intro _; exact hmem
        · have hnamed : isSectionNamed n (StreamEvent.sectionEv m d) = false := by
            simp [isSectionNamed]
            intro hc; exact absurd hc hmn
          rw [hnamed, if_neg (by simp)]
          have hih := ih (em ++ [m])
          refine ⟨by have := hih.1; omega, ?_, ?_, ?_⟩
          · intro hc
            have := hih.2.1 (by simp [hc])
            omega
          · intro hc
            exact hih.2.2.1 (by simp [hc])
          · intro hc
            exact hih.2.2.2 (by omega)

/-- Counting invariant of the chunk loop. -/
theorem processChunks_count (chunks : List (List Char)) (buf : List Char)
    (em : List String) (n : String) :
    (processChunks chunks buf em).countP (isSectionNamed n) ≤
      if n ∈ em then 0 else 1 := by
  induction chunks generalizing buf em with
  | nil => simp [processChunks]
  | cons ch rest ih =>
    rw [processChunks, List.countP_append]
    have hc := emitSections_count sectionNames (buf ++ ch) em n
    have hr := ih (buf ++ ch) (emitSections sectionNames (buf ++ ch) em).2
    by_cases hm : n ∈ em
    · rw [if_pos hm]
      have h0 := hc.2.1 hm
      have h2 := hc.2.2.1 hm
      rw [if_pos h2] at hr
      omega
    · rw [if_neg hm]
      rcases Nat.lt_or_ge
          ((emitSections sectionNames (buf ++ ch) em).1.countP (isSectionNamed n)) 1 with
        hlt | hge
      · have hb : (processChunks rest (buf ++ ch)
            (emitSections sectionNames (buf ++ ch) em).2).countP (isSectionNamed n) ≤ 1 := by
          refine le_trans hr ?_
          split <;> omega
        omega
      · have h2 := hc.2.2.2 hge
        rw [if_pos h2] at hr
        have h1 := hc.1
        omega

/-- C1: in every streaming run each of the three sections is emitted at
most once, and every emitted section object comes from the buffer made
of the chunks received so far, at the first occurrence of the
`"<section>":` pattern followed by an opening brace, via a nonempty span
whose escape- and string-aware brace-depth scan has returned to zero,
that ends at its closing brace and parses standalone as JSON to exactly
the emitted object — never from a buffer without such a balanced span. -/
theorem generate_stream_sections_unique_and_balanced :
    (∀ (chunks : List (List Char)) (failure : Option String) (n : String),
      (generate_stream chunks failure).countP (isSectionNamed n) ≤ 1) ∧
    (∀ (chunks : List (List Char)) (failure : Option String) (n : String) (d : Json),
      StreamEvent.sectionEv n d ∈ generate_stream chunks failure →
      ∃ k, 1 ≤ k ∧ k ≤ chunks.length ∧
        try_extract_section ((chunks.take k).flatten) n = some d ∧
        ∃ i bs sp rest,
          matchKeyAt n.data (((chunks.take k).flatten).drop i) = some bs ∧
          (∀ j, j < i → matchKeyAt n.data (((chunks.take k).flatten).drop j) = none) ∧
          bs = sp ++ rest ∧ sp ≠ [] ∧ bs.head? = some '{' ∧
          (sp.foldl stepChar ⟨0, false, false⟩).depth = 0 ∧
          sp.getLast? = some '}' ∧
          Json.parse sp = some d) := by
  constructor
  · intro chunks failure n
    unfold generate_stream
    rw [List.countP_append]
    have h1 := processChunks_count chunks [] [] n
    rw [if_neg (List.not_mem_nil n)] at h1
    have h2 : (List.countP (isSectionNamed n)
        [match failure with
         | none => StreamEvent.done
         | some msg => StreamEvent.errorEv msg]) = 0 := by
      cases failure <;> simp [isSectionNamed]
    omega
  · intro chunks failure n d h
    unfold generate_stream at h
    rcases List.mem_append.mp h with h | h
    · rcases processChunks_mem h with ⟨k, hk1, hk2, hext⟩
      rw [List.nil_append] at hext
      rcases try_extract_section_sound _ _ _ hext with
        ⟨i, bs, sp, rest, hmi, hlt, hbs, hne, hhd, hdep, hlast, hparse⟩
      exact ⟨k, hk1, hk2, hext, i, bs, sp, rest, hmi, hlt, hbs, hne, hhd, hdep, hlast, hparse⟩
    · cases failure <;> simp at h

/-- Witness for C1 at a two-chunk stream whose first chunk cuts the
architecture section inside a string literal. -/
theorem generate_stream_sections_unique_and_balanced_witness :
    ((generate_stream
        ["\x7b\"architecture\": \x7b\"x\"".data, ": 1\x7d\x7d".data] none).countP
      (isSectionNamed "architecture") ≤ 1) ∧
    (StreamEvent.sectionEv "architecture" (Json.obj [("x", Json.num "1")]) ∈
      generate_stream ["\x7b\"architecture\": \x7b\"x\"".data, ": 1\x7d\x7d".data] none) ∧
    (∃ k, 1 ≤ k ∧
      k ≤ (["\x7b\"architecture\": \x7b\"x\"".data, ": 1\x7d\x7d".data] : List (List Char)).length ∧
      try_extract_section
          (((["\x7b\"architecture\": \x7b\"x\"".data, ": 1\x7d\x7d".data] : List (List Char)).take k).flatten)
          "architecture" = some (Json.obj [("x", Json.num "1")]) ∧
      ∃ i bs sp rest,
        matchKeyAt "architecture".data
            ((((["\x7b\"architecture\": \x7b\"x\"".data, ": 1\x7d\x7d".data] : List (List Char)).take k).flatten).drop i) =
          some bs ∧
        (∀ j, j < i → matchKeyAt "architecture".data
            ((((["\x7b\"architecture\": \x7b\"x\"".data, ": 1\x7d\x7d".data] : List (List Char)).take k).flatten).drop j) = none) ∧
        bs = sp ++ rest ∧ sp ≠ [] ∧ bs.head? = some '{' ∧
        (sp.foldl stepChar ⟨0, false, false⟩).depth = 0 ∧
        sp.getLast? = some '}' ∧
        Json.parse sp = some (Json.obj [("x", Json.num "1")])) := by
  have hev : generate_stream
      ["\x7b\"architecture\": \x7b\"x\"".data, ": 1\x7d\x7d".data] none =
      [StreamEvent.sectionEv "architecture" (Json.obj [("x", Json.num "1")]),
       StreamEvent.done] := by rfl
  have hmem : StreamEvent.sectionEv "architecture" (Json.obj [("x", Json.num "1")]) ∈
      generate_stream ["\x7b\"architecture\": \x7b\"x\"".data, ": 1\x7d\x7d".data] none := by
    rw [hev]
    exact List.mem_cons_self _ _
  exact ⟨generate_stream_sections_unique_and_balanced.1 _ none "architecture",
    hmem,
    generate_stream_sections_unique_and_balanced.2 _ none "architecture" _ hmem⟩

/-- C5, counterexample: the streaming path emits the raw parsed object
with no per-section schema validation; a section object that violates
the `Architecture` schema is emitted anyway. -/
theorem stream_section_without_schema_validation :
    (StreamEvent.sectionEv "architecture" (Json.obj [("bogus", Json.num "1")]) ∈
      generate_stream ["\x7b\"architecture\": \x7b\"bogus\": 1\x7d\x7d".data] none) ∧
    validateArchitecture (Json.obj [("bogus", Json.num "1")]) = none := by
  constructor
  · have hev : generate_stream ["\x7b\"architecture\": \x7b\"bogus\": 1\x7d\x7d".data] none =
        [StreamEvent.sectionEv "architecture" (Json.obj [("bogus", Json.num "1")]),
         StreamEvent.done] := by rfl
    rw [hev]
    exact List.mem_cons_self _ _
  · rfl

/-- C5 (amended): every `section` event carries exactly the JSON object
parsed from the first brace-balanced span of that section in the buffer
of the chunks received so far; no per-section Validator/Mapper runs
before emission, so the carried data may violate the section's typed
schema. -/
theorem stream_sections_carry_raw_parsed_span :
    ∀ (chunks : List (List Char)) (failure : Option String) (n : String) (d : Json),
      StreamEvent.sectionEv n d ∈ generate_stream chunks failure →
      ∃ k, 1 ≤ k ∧ k ≤ chunks.length ∧
        try_extract_section ((chunks.take k).flatten) n = some d := by
  intro chunks failure n d h
  unfold generate_stream at h
  rcases List.mem_append.mp h with h | h
  · rcases processChunks_mem h with ⟨k, hk1, hk2, hext⟩
    rw [List.nil_append] at hext
    exact ⟨k, hk1, hk2, hext⟩
  · cases failure <;> simp at h

/-- Witness for C5 at the one-chunk stream carrying a schema-violating
architecture object. -/
theorem stream_sections_carry_raw_parsed_span_witness :
    (StreamEvent.sectionEv "architecture" (Json.obj [("bogus", Json.num "1")]) ∈
      generate_stream ["\x7b\"architecture\": \x7b\"bogus\": 1\x7d\x7d".data] none) ∧
    (∃ k, 1 ≤ k ∧ k ≤ 1 ∧
      try_extract_section
          (((["\x7b\"architecture\": \x7b\"bogus\": 1\x7d\x7d".data] : List (List Char)).take k).flatten)
          "architecture" = some (Json.obj [("bogus", Json.num "1")])) := by
  have hmem : StreamEvent.sectionEv "architecture" (Json.obj [("bogus", Json.num "1")]) ∈
      generate_stream ["\x7b\"architecture\": \x7b\"bogus\": 1\x7d\x7d".data] none := by
    have hev : generate_stream ["\x7b\"architecture\": \x7b\"bogus\": 1\x7d\x7d".data] none =
        [StreamEvent.sectionEv "architecture" (Json.obj [("bogus", Json.num "1")]),
         StreamEvent.done] := by rfl
    rw [hev]
    exact List.mem_cons_self _ _
  exact ⟨hmem,
    stream_sections_carry_raw_parsed_span _ none "architecture" _ hmem⟩
